import Mathlib

/-!
Shallow embedding of the `reactions` library: the expression grammar engine
for reaction/decay strings (`include/reactions/tokens.hpp`,
`include/reactions/exceptions.hpp`, `include/reactions/processes.hpp`) and
the generic fixed-width record database
(`include/reactions/fields.hpp`, `include/reactions/database.hpp`).

Strings are modelled by `String` / `List Char`; the C++ iterator pair
`(sit, end)` is modelled by the remaining character list `rem` (so that
`end - sit = rem.length`), and the token span `[start, sit)` by the explicit
character list `pending`.  Exceptions are modelled by `Except`.
-/

namespace Reactions

/-! ### Tokens (`tokens.hpp`)

The four tokens are ` `, `->`, `{` and `}`.  `match_token` compares the
literal characters at the cursor; matching at or past the end of the input
fails (the C++ relies on the guaranteed NUL terminator of `std::string`,
which matches none of the token characters). -/

/-- `match_token<tokens::arrow>` at the cursor. -/
def matchArrow : List Char → Bool
  | '-' :: '>' :: _ => true
  | _ => false

/-! ### The node tree (`processes.hpp`)

`processes::node` is a tagged pointer to either a wrapped element, a
`reaction` or a `decay`; the tag (`detail::node_kind`) of every constructed
node is `element`, `reaction` or `decay` (never `unknown`). -/

/-- The tag of a node (`processes::detail::node_kind`, without the
`unknown` tag that no constructed node carries). -/
inductive NodeKind where
  | element
  | reaction
  | decay
deriving DecidableEq, Repr

/-- A node of a parsed tree: an element, a nested reaction (its reactants
and products) or a nested decay (its head and products). -/
inductive Node (E : Type) where
  | element : E → Node E
  | reaction (reactants products : List (Node E)) : Node E
  | decay (head : E) (products : List (Node E)) : Node E
deriving Repr

/-- `node::type()` -/
def Node.kind {E : Type} : Node E → NodeKind
  | .element _ => .element
  | .reaction _ _ => .reaction
  | .decay _ _ => .decay

/-- The `reaction<Element>` class: two ordered sequences of nodes. -/
structure Reaction (E : Type) where
  reactants : List (Node E)
  products : List (Node E)
deriving Repr

/-- The `decay<Element>` class: a head element and a sequence of nodes. -/
structure Decay (E : Type) where
  head : E
  products : List (Node E)
deriving Repr

/-! ### Structural comparison (`processes.hpp`, `check_nodes` and the
`operator==` of `reaction` and `decay`)

The functions are mutually recursive through nested chains; the `fuel`
argument makes the recursion structural.  All comparisons performed by the
embedded code are faithful to the source, including two peculiarities of
`check_nodes`:

* the value comparison inside the inner loop compares `first[i]` with
  `second[i]` (not `second[j]`), and
* the body of the outer loop ends in an unconditional `return false`, so
  the outer loop never runs a second iteration.
-/

mutual

/-- `processes::check_nodes(first, second)`. -/
def check_nodes {E : Type} (eqE : E → E → Bool) :
    Nat → List (Node E) → List (Node E) → Bool
  | 0, _, _ => false
  | fuel + 1, first, second =>
    if first.length ≠ second.length then false
    else
      match first with
      | [] => true
      | _ :: _ =>
        -- outer loop, iteration i = 0: the inner loop over j only updates
        -- the mask, after which the loop body hits `return false`
        let _mask :=
          check_nodes_inner eqE fuel first second 0 0
            (List.replicate first.length false)
        false

/-- The inner loop (over `j`) of `check_nodes` for a fixed `i`; it returns
the updated mask.  Out-of-bounds accesses cannot happen in the source
(`i < first.length = second.length` and `j < second.length`); the
catch-all returns the mask unchanged. -/
def check_nodes_inner {E : Type} (eqE : E → E → Bool) :
    Nat → List (Node E) → List (Node E) → Nat → Nat → List Bool → List Bool
  | 0, _, _, _, _, mask => mask
  | fuel + 1, first, second, i, j, mask =>
    if j < second.length then
      let mask' :=
        if mask.getD j false then mask -- already used
        else
          match first[i]?, second[j]?, second[i]? with
          | some fi, some sj, some si =>
            if sj.kind ≠ fi.kind then mask -- different types
            else if node_eq_deref eqE fuel fi si then mask.set j true
            else mask
          | _, _, _ => mask
      check_nodes_inner eqE fuel first second i (j + 1) mask'
    else mask

/-- The `switch (first[i].type())` of `check_nodes`: compare the objects
behind two nodes of the same kind with the `operator==` of the pointed-to
type.  (When the kinds differ the source would `static_cast` to the wrong
type; that path is unreachable under the guard of the inner loop for the
inputs we evaluate, and is modelled as `false`.) -/
def node_eq_deref {E : Type} (eqE : E → E → Bool) :
    Nat → Node E → Node E → Bool
  | 0, _, _ => false
  | fuel + 1, a, b =>
    match a, b with
    | .element x, .element y => eqE x y
    | .reaction r1 p1, .reaction r2 p2 => reaction_eq eqE fuel r1 p1 r2 p2
    | .decay h1 p1, .decay h2 p2 => decay_eq eqE fuel h1 p1 h2 p2
    | _, _ => false

/-- `reaction::operator==`. -/
def reaction_eq {E : Type} (eqE : E → E → Bool) :
    Nat → List (Node E) → List (Node E) → List (Node E) → List (Node E) →
    Bool
  | 0, _, _, _, _ => false
  | fuel + 1, r1, p1, r2, p2 =>
    if r1.length ≠ r2.length ∨ p1.length ≠ p2.length then false
    else check_nodes eqE fuel r1 r2 && check_nodes eqE fuel p1 p2

/-- `decay::operator==`. -/
def decay_eq {E : Type} (eqE : E → E → Bool) :
    Nat → E → List (Node E) → E → List (Node E) → Bool
  | 0, _, _, _, _ => false
  | fuel + 1, h1, p1, h2, p2 =>
    if p1.length ≠ p2.length then false
    else eqE h1 h2 && check_nodes eqE fuel p1 p2

end

/-! ### The intended order-insensitive comparison

Modelled from the spec: the node-list comparison of spec §4.3 (an
exhaustive greedy bipartite matching: every node of the first list must be
paired with a distinct, structurally equal, not-yet-matched node of the
second list, recursively through nested chains).  The source's
`check_nodes` is intended to implement this but does not (spec §9). -/

mutual

/-- Modelled from the spec: structural equality of two nodes (same tag and
equal contents, order-insensitive inside nested chains). -/
def node_eq_spec {E : Type} (eqE : E → E → Bool) :
    Nat → Node E → Node E → Bool
  | 0, _, _ => false
  | fuel + 1, a, b =>
    match a, b with
    | .element x, .element y => eqE x y
    | .reaction r1 p1, .reaction r2 p2 =>
      check_nodes_spec eqE fuel r1 r2 && check_nodes_spec eqE fuel p1 p2
    | .decay h1 p1, .decay h2 p2 =>
      eqE h1 h2 && check_nodes_spec eqE fuel p1 p2
    | _, _ => false

/-- Modelled from the spec: remove the first node of the list that is
structurally equal to `a`; `none` when no node matches. -/
def remove_first_match {E : Type} (eqE : E → E → Bool) :
    Nat → Node E → List (Node E) → Option (List (Node E))
  | 0, _, _ => none
  | _ + 1, _, [] => none
  | fuel + 1, a, b :: bs =>
    if node_eq_spec eqE fuel a b then some bs
    else (remove_first_match eqE fuel a bs).map (b :: ·)

/-- Modelled from the spec: exhaustive matching of two node lists; every
node of the first list consumes a distinct matching node of the second. -/
def check_nodes_spec {E : Type} (eqE : E → E → Bool) :
    Nat → List (Node E) → List (Node E) → Bool
  | 0, _, _ => false
  | _ + 1, [], second => second.isEmpty
  | fuel + 1, a :: as, second =>
    match remove_first_match eqE fuel a second with
    | some rest => check_nodes_spec eqE fuel as rest
    | none => false

end

/-! ### Syntax errors (`exceptions.hpp`)

`exceptions::__syntax_error` carries a message and the remaining distance
`rpos` from the failure point to the end of the string.  The top-level
entry converts it into a formatted `syntax_error` via
`exceptions::detail::mark_error`. -/

/-- `exceptions::__syntax_error`. -/
structure SynErr where
  msg : String
  rpos : Nat
deriving DecidableEq, Repr

/-- `exceptions::detail::mark_error(str, msg, rpos)`: place a caret under
the offset `str.length - rpos` of the original source. -/
def mark_error (str msg : String) (rpos : Nat) : String :=
  let ps := str.length - rpos
  msg ++ ":\n " ++ str ++ "\n" ++ String.mk (List.replicate (ps + 1) ' ') ++ "^"

/-! ### The reaction parser (`reaction::reaction(sit, end, builder)`)

`pending` is the token span `[start, sit)`, `rem` the unread input
`[sit, end)`, `inProducts` the condition `current_set == &m_products`.
The constructor body is split into the pre-loop part (`reaction_ctor`),
the scanning loop (`reaction_loop`) and the post-loop part
(`reaction_finish`).  A successful parse returns the reaction together
with the remaining input (the final cursor position, which is shared with
the caller by reference in the source). -/

/-- `current_set->push_back(n)`. -/
def pushCurrent {E : Type} (reactants products : List (Node E))
    (inProducts : Bool) (n : Node E) : List (Node E) × List (Node E) :=
  if inProducts then (reactants, products ++ [n]) else (reactants ++ [n], products)

/-- The code after the scanning loop of the `reaction` constructor: flush a
pending token, then check that both sides are non-empty. -/
def reaction_finish {E : Type} (f : String → E)
    (reactants products : List (Node E)) (inProducts : Bool)
    (pending rem : List Char) : Except SynErr (Reaction E × List Char) :=
  let (r', p') :=
    if pending.isEmpty then (reactants, products)
    else pushCurrent reactants products inProducts (.element (f (String.mk pending)))
  if r'.isEmpty then .error ⟨"Expected reactants", rem.length⟩
  else if p'.isEmpty then .error ⟨"Expected products", rem.length⟩
  else .ok (⟨r', p'⟩, rem)

mutual

/-- The scanning loop of the `reaction` constructor. -/
def reaction_loop {E : Type} (f : String → E) :
    Nat → List (Node E) → List (Node E) → Bool → List Char → List Char →
    Except SynErr (Reaction E × List Char)
  | 0, _, _, _, _, _ => .error ⟨"fuel exhausted", 0⟩
  | fuel + 1, reactants, products, inProducts, pending, rem =>
    match rem with
    | [] => reaction_finish f reactants products inProducts pending []
    | c :: rest =>
      if c = ' ' then
        if pending.isEmpty then
          -- remove consecutive spaces
          reaction_loop f fuel reactants products inProducts [] rest
        else
          -- add the new element
          let (r', p') := pushCurrent reactants products inProducts
            (.element (f (String.mk pending)))
          reaction_loop f fuel r' p' inProducts [] rest
      else if c = '{' then
        if pending.isEmpty then
          -- begin a new reaction
          match reaction_ctor f fuel rest with
          | .error e => .error e
          | .ok (nested, rem') =>
            let (r', p') := pushCurrent reactants products inProducts
              (.reaction nested.reactants nested.products)
            let consumed := rest.take (rest.length - rem'.length)
            if consumed.getLast? ≠ some '}' then
              .error ⟨"Expected closing braces", rem'.length⟩
            else
              -- `start` is not updated by this branch: the token span now
              -- stretches from the `{` to the current cursor
              reaction_loop f fuel r' p' inProducts ('{' :: consumed) rem'
        else
          -- add the new element; the cursor is not advanced (`start = sit`)
          let (r', p') := pushCurrent reactants products inProducts
            (.element (f (String.mk pending)))
          reaction_loop f fuel r' p' inProducts [] rem
      else if c = '}' then
        -- close the reaction: flush, consume the `}` and break
        let (r', p') :=
          if pending.isEmpty then (reactants, products)
          else pushCurrent reactants products inProducts
            (.element (f (String.mk pending)))
        reaction_finish f r' p' inProducts [] rest
      else if matchArrow rem then
        let (r', p') :=
          if pending.isEmpty then (reactants, products)
          else pushCurrent reactants products inProducts
            (.element (f (String.mk pending)))
        if r'.isEmpty then .error ⟨"Missing reactants", rem.length⟩
        else if inProducts then .error ⟨"Duplicated arrow", rem.length⟩
        else reaction_loop f fuel r' p' true [] (rem.drop 2)
      else
        reaction_loop f fuel reactants products inProducts (pending ++ [c]) rest

/-- The `reaction` constructor: skip leading spaces, reject a leading `{`,
then scan. -/
def reaction_ctor {E : Type} (f : String → E) :
    Nat → List Char → Except SynErr (Reaction E × List Char)
  | 0, _ => .error ⟨"fuel exhausted", 0⟩
  | fuel + 1, input =>
    let rem := input.dropWhile (· = ' ')
    if rem.head? = some '{' then
      .error ⟨"Reaction starts with another reaction", rem.length⟩
    else reaction_loop f fuel [] [] false [] rem

end

/-- `make_reaction_for(str, builder)`: run the parse on the whole string,
annotating any syntax error with the original input.  The final cursor
position is discarded. -/
def make_reaction_for {E : Type} (f : String → E) (str : String) :
    Except String (Reaction E) :=
  match reaction_ctor f (3 * str.length + 3) str.data with
  | .ok (r, _) => .ok r
  | .error e => .error (mark_error str e.msg e.rpos)

/-! ### The decay parser (`decay::decay(sit, end, builder)`)

Same conventions as for the reaction parser; `fillProducts` models the
`fill_products` flag and `head` the `std::optional` member `m_head`.
Note that the decay constructor captures `start` *before* skipping the
leading spaces, so the skipped spaces are part of the first token span. -/

/-- The code after the scanning loop of the `decay` constructor.  (The
final `else` branch of the source, reporting "Specifying decay with a
single element", is unreachable: `m_head` was already checked.) -/
def decay_finish {E : Type} (f : String → E) (head : Option E)
    (products : List (Node E)) (fillProducts : Bool)
    (pending rem : List Char) : Except SynErr (Decay E × List Char) :=
  match head with
  | none => .error ⟨"No elements have been parsed", rem.length + pending.length⟩
  | some h =>
    if products.isEmpty then .error ⟨"Expected products", rem.length⟩
    else if pending.isEmpty then .ok (⟨h, products⟩, rem)
    else if fillProducts then
      .ok (⟨h, products ++ [.element (f (String.mk pending))]⟩, rem)
    else .error ⟨"Arrow expected", rem.length⟩

mutual

/-- The scanning loop of the `decay` constructor. -/
def decay_loop {E : Type} (f : String → E) :
    Nat → Option E → List (Node E) → Bool → List Char → List Char →
    Except SynErr (Decay E × List Char)
  | 0, _, _, _, _, _ => .error ⟨"fuel exhausted", 0⟩
  | fuel + 1, head, products, fillProducts, pending, rem =>
    match rem with
    | [] => decay_finish f head products fillProducts pending []
    | c :: rest =>
      if c = ' ' then
        if pending.isEmpty then
          -- remove consecutive spaces
          decay_loop f fuel head products fillProducts [] rest
        else if head.isNone then
          decay_loop f fuel (some (f (String.mk pending))) products
            fillProducts [] rest
        else if fillProducts then
          decay_loop f fuel head
            (products ++ [.element (f (String.mk pending))]) fillProducts
            [] rest
        else .error ⟨"Arrow expected", rem.length + pending.length⟩
      else if c = '{' then
        if fillProducts then
          match decay_ctor f fuel rest with
          | .error e => .error e
          | .ok (nested, rem') =>
            let consumed := rest.take (rest.length - rem'.length)
            if consumed.getLast? ≠ some '}' then
              .error ⟨"Expected closing braces", rem'.length⟩
            else
              -- as in the reaction parser, `start` is not updated here
              decay_loop f fuel head
                (products ++ [.decay nested.head nested.products])
                fillProducts (pending ++ '{' :: consumed) rem'
        else .error ⟨"Specifying a decay as head", rem.length + pending.length⟩
      else if c = '}' then
        -- close the decay: flush (with a validity check) and break
        if pending.isEmpty then decay_finish f head products fillProducts [] rest
        else if head.isNone ∨ ¬fillProducts then
          .error ⟨"Invalid syntax", rem.length⟩
        else
          decay_finish f head
            (products ++ [.element (f (String.mk pending))]) fillProducts
            [] rest
      else if matchArrow rem then
        if fillProducts then .error ⟨"Duplicated arrow", rem.length⟩
        else if ¬pending.isEmpty then
          -- `fill_head_func()` (this overwrites an already-set head)
          decay_loop f fuel (some (f (String.mk pending))) products true []
            (rem.drop 2)
        else if head.isNone then .error ⟨"Missing head particle", rem.length⟩
        else decay_loop f fuel head products true [] (rem.drop 2)
      else
        decay_loop f fuel head products fillProducts (pending ++ [c]) rest

/-- The `decay` constructor: capture `start`, skip leading spaces, reject a
leading `{`, then scan. -/
def decay_ctor {E : Type} (f : String → E) :
    Nat → List Char → Except SynErr (Decay E × List Char)
  | 0, _ => .error ⟨"fuel exhausted", 0⟩
  | fuel + 1, input =>
    let spaces := input.takeWhile (· = ' ')
    let rem := input.dropWhile (· = ' ')
    if rem.head? = some '{' then
      .error ⟨"Decay starts with another decay", rem.length⟩
    else decay_loop f fuel none [] false spaces rem

end

/-- `make_decay_for(str, builder)`: run the parse on the whole string,
annotating any syntax error with the original input.  The final cursor
position is discarded. -/
def make_decay_for {E : Type} (f : String → E) (str : String) :
    Except String (Decay E) :=
  match decay_ctor f (3 * str.length + 3) str.data with
  | .ok (d, _) => .ok d
  | .error e => .error (mark_error str e.msg e.rpos)

/-! ### Field decoding (`fields.hpp`)

A field descriptor carries one column range (scalar fields) or several
(composite value-and-error fields).  `read_field` extracts the trimmed
content of a line and converts it with the `string_to_type` overload of
the field's value type; the conversion returns a status
(`success` / `empty` / `failed`).  `string_to_type` catches only
`std::invalid_argument`; any `std::out_of_range` raised by `std::stoi`
(and friends) propagates out of the field-reading machinery.  The
`Except CppExc` layer models exactly those escaping exceptions. -/

/-- A C++ exception that escapes the field-decoding code untyped (no
`reactions` error type wraps it). -/
inductive CppExc where
  | std_out_of_range
deriving DecidableEq, Repr

/-- Outcome of `string_to_type` / `read_field`: the conversion status of
`fields.hpp` together with the produced value. -/
inductive ReadResult (T : Type) where
  | success : T → ReadResult T
  | empty
  | failed
deriving DecidableEq, Repr

/-- `fields::range<Min, Max>`. -/
structure Range where
  min : Nat
  max : Nat
deriving DecidableEq, Repr

/-- `std::string::find_first_not_of(' ', pos)`: the smallest index
`i ≥ pos` with `s[i] ≠ ' '`; `npos` (which compares `≥` any bound) is
modelled as `none`. -/
def find_first_not_of_space : List Char → Nat → Option Nat
  | [], _ => none
  | c :: cs, 0 =>
    if c ≠ ' ' then some 0 else (find_first_not_of_space cs 0).map (· + 1)
  | _ :: cs, pos + 1 => (find_first_not_of_space cs pos).map (· + 1)

/-- `std::string::find_last_not_of(' ', pos)`: the largest index `i ≤ pos`
with `s[i] ≠ ' '` (`none` when no such index exists). -/
def find_last_not_of_space : List Char → Nat → Option Nat
  | [], _ => none
  | c :: _, 0 => if c ≠ ' ' then some 0 else none
  | c :: cs, pos + 1 =>
    match find_last_not_of_space cs pos with
    | some i => some (i + 1)
    | none => if c ≠ ' ' then some 0 else none

/-- `fields::read_field<Range>(out, s)` for a scalar field: locate the
content, then convert it with the `string_to_type` overload `conv`. -/
def read_field_scalar {T : Type} (conv : String → Except CppExc (ReadResult T))
    (r : Range) (s : String) : Except CppExc (ReadResult T) :=
  match find_first_not_of_space s.data r.min with
  | none => .ok .empty
  | some b =>
    if r.max ≤ b then .ok .empty
    else
      match find_last_not_of_space s.data r.max with
      | some last => conv (String.mk ((s.data.drop b).take (last + 1 - b)))
      | none => conv "" -- unreachable: position `b < max` holds a non-space

/-- `fields::read_field<Ranges>(out, s)` for a `value_and_error` field.
The descriptor declares three subranges
(`static_assert(std::tuple_size_v<Ranges> == 3)`); the value is read from
the first and the error from the second, and the emptiness pre-check uses
the first range's `min` and the *second* range's `max`. -/
def read_field_ve {T : Type} (conv : String → Except CppExc (ReadResult T))
    (r0 r1 r2 : Range) (s : String) : Except CppExc (ReadResult (T × T)) :=
  match find_first_not_of_space s.data r0.min with
  | none => .ok .empty
  | some b =>
    if r1.max ≤ b then .ok .empty
    else do
      let value_sc ← read_field_scalar conv r0 s
      let error_sc ← read_field_scalar conv r1 s
      match value_sc, error_sc with
      | .empty, _ => .ok .failed -- either all are defined or none
      | _, .empty => .ok .failed
      | .failed, _ => .ok .failed
      | _, .failed => .ok .failed
      | .success v, .success e => .ok (.success (v, e))

/-! ### `std::stoi` and `string_to_type(int&, s)` (`fields.hpp`)

`std::stoi` is modelled for a 32-bit `int`: leading spaces, an optional
sign and decimal digits; `std::invalid_argument` when no digits can be
converted, `std::out_of_range` when the value does not fit.  The
`string_to_type` overloads catch only `std::invalid_argument`. -/

/-- Exceptions of `std::stoi`. -/
inductive StoiExc where
  | invalid_argument
  | out_of_range
deriving DecidableEq, Repr

/-- Model of `std::stoi` (32-bit `int`, base 10). -/
def stoi (s : String) : Except StoiExc Int :=
  let l := s.data.dropWhile (· = ' ')
  let (sign, l') : Int × List Char :=
    match l with
    | '-' :: t => (-1, t)
    | '+' :: t => (1, t)
    | _ => (1, l)
  let digits := l'.takeWhile (·.isDigit)
  if digits.isEmpty then .error .invalid_argument
  else
    let v : Int :=
      sign * (digits.foldl (fun a c => a * 10 + (c.toNat - '0'.toNat)) 0 : Nat)
    if v < -2147483648 ∨ 2147483647 < v then .error .out_of_range
    else .ok v

/-- `fields::detail::string_to_type(int&, s)`: returns `empty` for an
empty string and catches `std::invalid_argument` (returning `failed`);
`std::out_of_range` is *not* caught and escapes. -/
def string_to_type_int (s : String) : Except CppExc (ReadResult Int) :=
  if s.isEmpty then .ok .empty
  else
    match stoi s with
    | .ok v => .ok (.success v)
    | .error .invalid_argument => .ok .failed
    | .error .out_of_range => .error .std_out_of_range

/-- `fields::detail::string_to_type(std::string&, s)`: never fails; an
empty extraction reports `empty`. -/
def string_to_type_string (s : String) : Except CppExc (ReadResult String) :=
  if s.isEmpty then .ok .empty else .ok (.success s)

/-! ### The record database (`database.hpp`)

`database::database<Element, NameField, IdField>` is a class template; its
template parameters and the field machinery they bring in are modelled as
explicit parameters, bundled in `DBOps`:

* `getName` / `getId` — `el.template get<NameField>()` / `get<IdField>()`;
* `eqN` / `eqI` — `operator==` of the key field values;
* `nameStr` — `el.name()`, used in error messages;
* `readName` / `readId` — `fields::read_field<...>(out, line)` for the two
  key fields, returning the conversion status together with the value the
  output variable holds afterwards;
* `readElement` — `database::read_element(line)`, which decodes a full
  record or fails with a `database_error`.

The backing file is modelled as its list of data lines (`DBState.file`),
and the cache as the vector plus the separator index.  Every mutating
operation returns the result *and* the state of the cache when it
finishes, so that a raised exception's effect on the cache is visible. -/

/-- The typed errors of the database layer (`database_error` and
`lookup_error` of `exceptions.hpp`).  `undefined_behaviour` is not a C++
exception: it marks an execution for which the C++ standard gives no
semantics (used to model `std::vector::back()` on an empty vector). -/
inductive DbErr where
  | database_error (msg : String)
  | lookup_error (msg : String)
  | undefined_behaviour (what : String)
deriving DecidableEq, Repr

/-- `true` exactly on a raised `database_error`. -/
def errIsDatabaseError {α : Type} : Except DbErr α → Bool
  | .error (.database_error _) => true
  | _ => false

/-- Conversion status of a key-field read (`fields::conversion_status`). -/
inductive ConvStatus where
  | success
  | empty
  | failed
deriving DecidableEq, Repr

/-- The template parameters of `database::database` (see the section
comment). -/
structure DBOps (E KN KI : Type) where
  getName : E → KN
  getId : E → KI
  nameStr : E → String
  eqN : KN → KN → Bool
  eqI : KI → KI → Bool
  readName : String → ConvStatus × KN
  readId : String → ConvStatus × KI
  readElement : String → Except DbErr E

/-- The state owned by a database: the data lines of the backing file and
the cache (`cache::m_vector` and `cache::m_separator`). -/
structure DBState (E : Type) where
  file : List String
  vector : List E
  separator : Nat
deriving Repr

/-- The three cache states (`cache::cache_status`). -/
inductive CacheStatus where
  | empty
  | user
  | full
deriving DecidableEq, Repr

/-- `cache::status()`. -/
def cacheStatus {E : Type} (st : DBState E) : CacheStatus :=
  if st.vector.length ≠ 0 then
    if st.separator = 0 then .user else .full
  else .empty

/-- The user-registered segment `[separator, end)` of the cache. -/
def userRegistered {E : Type} (st : DBState E) : List E :=
  st.vector.drop st.separator

/-- `clear_cache()` / `cache::clear()`. -/
def clear_cache {E : Type} (st : DBState E) : DBState E :=
  { st with vector := [], separator := 0 }

/-- `disable_cache()` / `cache::clear_database_elements()`: erase the
`[0, separator)` slice and reset the separator. -/
def disable_cache {E : Type} (st : DBState E) : DBState E :=
  { st with vector := st.vector.drop st.separator, separator := 0 }

/-- Whether two elements clash on the name key or on the id key (the
predicate of the `find_if` calls in `cache`). -/
def clashes {E KN KI : Type} (ops : DBOps E KN KI) (a b : E) : Bool :=
  ops.eqN (ops.getName a) (ops.getName b) || ops.eqI (ops.getId a) (ops.getId b)

/-- The reading loop of `cache::add_database_elements`: build the new
cache record by record, checking each decoded record against the
user-registered segment of the old cache.  The clash message is built from
`new_cache.back()`, which is undefined behaviour when the clash hits the
very first record. -/
def add_database_elements_loop {E KN KI : Type} (ops : DBOps E KN KI)
    (user : List E) : List E → List String → Except DbErr (List E)
  | newCache, [] => .ok newCache
  | newCache, line :: rest =>
    match ops.readElement line with
    | .error e => .error e
    | .ok el =>
      if ¬user.isEmpty ∧ user.any (fun u => clashes ops u el) then
        match newCache.getLast? with
        | some prev =>
          .error (.database_error
            ("User-defined element clashes with database element: \"" ++
              ops.nameStr prev ++ "\""))
        | none => .error (.undefined_behaviour "std::vector::back() on an empty vector")
      else add_database_elements_loop ops user (newCache ++ [el]) rest

/-- `enable_cache()`: a no-op when the cache is full; otherwise count the
file records, decode all of them into a fresh sequence
(`cache::add_database_elements`), append the previously cached
user-registered records and set the separator to the file record count.
The cache members are only assigned after the whole loop succeeds. -/
def enable_cache {E KN KI : Type} (ops : DBOps E KN KI) (st : DBState E) :
    Except DbErr Unit × DBState E :=
  if cacheStatus st = .full then (.ok (), st)
  else
    match add_database_elements_loop ops (userRegistered st) [] st.file with
    | .error e => (.error e, st)
    | .ok newCache =>
      (.ok (), { st with vector := newCache ++ userRegistered st,
                         separator := st.file.length })

/-- `cache::add_user_element`: scan the whole cache for a name or id
clash, then append. -/
def add_user_element {E KN KI : Type} (ops : DBOps E KN KI) (st : DBState E)
    (x : E) : Except DbErr Unit × DBState E :=
  if st.vector.any (fun el => clashes ops el x) then
    (.error (.database_error
      ("User-registered element clashes: \"" ++ ops.nameStr x ++ "\"")), st)
  else (.ok (), { st with vector := st.vector ++ [x] })

/-- The file-scanning loop of `register_element` (when the cache is not
full): check the name key and the id key of every line. -/
def register_scan {E KN KI : Type} (ops : DBOps E KN KI) (x : E) :
    List String → Option DbErr
  | [] => none
  | line :: rest =>
    if (ops.readName line).1 = .failed then
      some (.database_error "Error reading the database; data format not understood")
    else if ops.eqN (ops.getName x) (ops.readName line).2 then
      some (.database_error
        "Attempt to register an element with similar name to an element in the database")
    else if (ops.readId line).1 = .failed then
      some (.database_error "Error reading the database; data format not understood")
    else if ops.eqI (ops.getId x) (ops.readId line).2 then
      some (.database_error
        "Attempt to register an element with similar ID to an element in the database")
    else register_scan ops x rest

/-- `register_element(x)`: when the cache is not full, stream the file
checking both key fields, then delegate to `cache::add_user_element`
(which checks the cached records); the cache is only modified after all
checks pass. -/
def register_element {E KN KI : Type} (ops : DBOps E KN KI) (st : DBState E)
    (x : E) : Except DbErr Unit × DBState E :=
  if cacheStatus st ≠ .full then
    match register_scan ops x st.file with
    | some e => (.error e, st)
    | none => add_user_element ops st x
  else add_user_element ops st x

/-- The file-scanning loop of `database::access`: read the key field of
every line; a failed read raises a `database_error`, a key match returns
`read_element(line)`, and exhausting the file raises the not-found
`lookup_error`. -/
def access_file {E K : Type} (readKey : String → ConvStatus × K)
    (eqK : K → K → Bool) (readElement : String → Except DbErr E)
    (notFound : DbErr) (v : K) : List String → Except DbErr E
  | [] => .error notFound
  | line :: rest =>
    let (sc, ref) := readKey line
    if sc = .failed then
      .error (.database_error "Error reading the database; data format not understood")
    else if eqK ref v then readElement line
    else access_file readKey eqK readElement notFound v rest

/-- `database::access<Field>(v)`: the `Field`-specific pieces (`get`,
`operator==`, `read_field`, `Field::title`, `fields::to_string`) are
passed explicitly. -/
def access {E K : Type} (getKey : E → K) (eqK : K → K → Bool)
    (readKey : String → ConvStatus × K)
    (readElement : String → Except DbErr E) (title : String)
    (toStr : K → String) (st : DBState E) (v : K) : Except DbErr E :=
  let notFound : DbErr :=
    .lookup_error ("Unable to find element with " ++ title ++ " \"" ++ toStr v ++ "\"")
  match cacheStatus st with
  | .full =>
    match st.vector.find? (fun el => eqK (getKey el) v) with
    | some el => .ok el
    | none => .error notFound
  | .user =>
    match st.vector.find? (fun el => eqK (getKey el) v) with
    | some el => .ok el
    | none => access_file readKey eqK readElement notFound v st.file
  | .empty => access_file readKey eqK readElement notFound v st.file

/-! ### Spec-side descriptions used by the claim theorems -/

/-- Surrounding-space trim of a character list. -/
def trimSpaces (l : List Char) : List Char :=
  ((l.dropWhile (· = ' ')).reverse.dropWhile (· = ' ')).reverse

/-- Trailing-space trim of a character list. -/
def dropTrailingSpaces (l : List Char) : List Char :=
  (l.reverse.dropWhile (· = ' ')).reverse

/-- The half-open window `[a, b)` of a line. -/
def window (l : List Char) (a b : Nat) : List Char := (l.take b).drop a

/-- Scalar field decoding as the claim words it: extract exactly the
half-open window `[start, end)`, trim the surrounding spaces; an empty
extraction is `Absent`, anything else is converted. -/
def read_field_scalar_claim {T : Type}
    (conv : String → Except CppExc (ReadResult T)) (r : Range) (s : String) :
    Except CppExc (ReadResult T) :=
  let t := trimSpaces (window s.data r.min r.max)
  if t.isEmpty then .ok .empty else conv (String.mk t)

/-- Composite field decoding as the claim words it: decode each sub-range
independently; all sub-ranges `Absent` gives `Absent`, any `Malformed` or
a mix of `Present` and `Absent` gives `Malformed`. -/
def read_field_ve_claim {T : Type}
    (conv : String → Except CppExc (ReadResult T)) (r0 r1 : Range)
    (s : String) : Except CppExc (ReadResult (T × T)) := do
  let value_sc ← read_field_scalar_claim conv r0 s
  let error_sc ← read_field_scalar_claim conv r1 s
  match value_sc, error_sc with
  | .empty, .empty => .ok .empty
  | .success v, .success e => .ok (.success (v, e))
  | _, _ => .ok .failed

/-- The amended description of scalar field decoding: `Absent` iff the
half-open window `[min, max)` holds no non-space character (in particular
when it is out of range); otherwise the parsed text is the right-inclusive
window `[min, max]` with surrounding spaces trimmed. -/
def read_field_scalar_amended {T : Type}
    (conv : String → Except CppExc (ReadResult T)) (r : Range) (s : String) :
    Except CppExc (ReadResult T) :=
  if (window s.data r.min r.max).all (· = ' ') then .ok .empty
  else conv (String.mk (trimSpaces (window s.data r.min (r.max + 1))))

/-- The amended description of composite field decoding: `Absent` iff the
half-open span from the first sub-range's start to the second sub-range's
end holds no non-space character; otherwise the value and error sub-ranges
are decoded independently and any sub-range `Absent` or `Malformed` gives
`Malformed`. -/
def read_field_ve_amended {T : Type}
    (conv : String → Except CppExc (ReadResult T)) (r0 r1 : Range)
    (s : String) : Except CppExc (ReadResult (T × T)) :=
  if (window s.data r0.min r1.max).all (· = ' ') then .ok .empty
  else do
    let value_sc ← read_field_scalar conv r0 s
    let error_sc ← read_field_scalar conv r1 s
    match value_sc, error_sc with
    | .success v, .success e => .ok (.success (v, e))
    | _, _ => .ok .failed

/-- The lookup procedure as the claim describes it: a cache search and/or
a file search (first match wins, the matching line is decoded), selected
by the cache state, with the not-found `lookup_error` naming the field
title and the requested value. -/
def access_spec {E K : Type} (getKey : E → K) (eqK : K → K → Bool)
    (readKey : String → ConvStatus × K)
    (readElement : String → Except DbErr E) (title : String)
    (toStr : K → String) (st : DBState E) (v : K) : Except DbErr E :=
  let notFound : DbErr :=
    .lookup_error ("Unable to find element with " ++ title ++ " \"" ++ toStr v ++ "\"")
  let cacheHit := st.vector.find? (fun el => eqK (getKey el) v)
  let fileRes :=
    match st.file.find? (fun line => eqK (readKey line).2 v) with
    | some line => readElement line
    | none => .error notFound
  match cacheStatus st with
  | .full =>
    match cacheHit with
    | some el => .ok el
    | none => .error notFound
  | .user =>
    match cacheHit with
    | some el => .ok el
    | none => fileRes
  | .empty => fileRes

/-! ### Concrete template instantiations (used to evaluate the database
model at specific inputs) -/

/-- A database of plain string records whose name is the record itself and
whose id is the constant `0` (so any two records clash on the id key);
every line decodes to itself. -/
def opsConstId : DBOps String String Int :=
  ⟨fun e => e, fun _ => 0, fun e => e, (· == ·), (· == ·),
    fun l => (.success, l), fun _ => (.success, 1), fun l => .ok l⟩

/-- A database of plain string records whose name is the record itself and
whose id is its length (records of different lengths never clash on the
id key); every line decodes to itself. -/
def opsLen : DBOps String String Int :=
  ⟨fun e => e, fun e => (e.length : Int), fun e => e, (· == ·), (· == ·),
    fun l => (.success, l), fun l => (.success, (l.length : Int)),
    fun l => .ok l⟩

/-! ## Claim theorems -/

/-- C1: the claim states that the structural comparison of parsed
reactions is order-insensitive — a bijective matching decides equality, so
`parse("A B -> C D") == parse("B A -> D C")` holds and every parsed tree
equals itself.  The code refutes this: `check_nodes` ends the first
iteration of its outer loop with an unconditional `return false`, so
`reaction::operator==` (`reaction_eq`) on any two reactions with
non-empty sides returns `false` — even comparing a parsed tree with
itself — while the intended matching of spec §4.3 (`check_nodes_spec`)
accepts both of the claim's pairs. -/
theorem c1_equality_false_even_on_self :
    make_reaction_for (fun s => s) "A B -> C D" =
      .ok ⟨[.element "A", .element "B"], [.element "C", .element "D"]⟩ ∧
    make_reaction_for (fun s => s) "B A -> D C" =
      .ok ⟨[.element "B", .element "A"], [.element "D", .element "C"]⟩ ∧
    reaction_eq (fun a b : String => a == b) 100
      [.element "A", .element "B"] [.element "C", .element "D"]
      [.element "A", .element "B"] [.element "C", .element "D"] = false ∧
    reaction_eq (fun a b : String => a == b) 100
      [.element "A", .element "B"] [.element "C", .element "D"]
      [.element "B", .element "A"] [.element "D", .element "C"] = false ∧
    check_nodes_spec (fun a b : String => a == b) 100
      [.element "A", .element "B"] [.element "B", .element "A"] = true ∧
    check_nodes_spec (fun a b : String => a == b) 100
      [.element "A", .element "B"] [.element "A", .element "B"] = true :=
  ⟨rfl, rfl, rfl, rfl, rfl, rfl⟩

/-- C2: the claim states that when the recursive parse stops before the
end of the input (e.g. an unmatched top-level `}` followed by further
text, with a closing brace after `B`) the top-level entry fails with a positioned
syntax error.  The code performs no such check: the constructors break out
of their scanning loop on a top-level `}` and `make_reaction_for` /
`make_decay_for` discard the final cursor position, so both inputs below
parse successfully, consuming the `}` and silently ignoring the remaining
text. -/
theorem c2_trailing_text_silently_ignored :
    make_reaction_for (fun s => s) "A -> B\x7d C" =
      .ok ⟨[.element "A"], [.element "B"]⟩ ∧
    make_decay_for (fun s => s) "A -> B C\x7d D" =
      .ok ⟨"A", [.element "B", .element "C"]⟩ :=
  ⟨rfl, rfl⟩

/-- C3: for every element type and builder, parsing preserves token order
and side assignment: the reaction `"A B -> C D"` yields reactants
`[builder "A", builder "B"]` and products `[builder "C", builder "D"]` in
that order, the decay `"A -> B C"` yields head `builder "A"` and products
`[builder "B", builder "C"]` in that order, runs of several spaces
delimit like a single space, and the builder is applied to exactly the
text of each leaf token. -/
theorem c3_token_order_and_sides (E : Type) (f : String → E) :
    make_reaction_for f "A B -> C D" =
      .ok ⟨[.element (f "A"), .element (f "B")],
           [.element (f "C"), .element (f "D")]⟩ ∧
    make_decay_for f "A -> B C" =
      .ok ⟨f "A", [.element (f "B"), .element (f "C")]⟩ ∧
    make_reaction_for f "A  B ->  C D" =
      .ok ⟨[.element (f "A"), .element (f "B")],
           [.element (f "C"), .element (f "D")]⟩ :=
  ⟨rfl, rfl, rfl⟩

/-- C8: each grammar violation listed by the claim raises a syntax error:
for the Reaction grammar empty reactants (`"-> A"`, and the empty input),
empty products (`"A ->"`, `"A B"`) and a duplicated arrow; for the Decay
grammar a missing head, a braced sub-expression in head position (both a
leading one and one between the head and the arrow), empty products, a
duplicated arrow and a missing arrow (`"A B C"` — and `"A B"`, where the
missing arrow surfaces as empty products). -/
theorem c8_syntax_error_cases :
    make_reaction_for (fun s => s) "-> A" =
      .error "Missing reactants:\n -> A\n ^" ∧
    make_reaction_for (fun s => s) "" =
      .error "Expected reactants:\n \n ^" ∧
    make_reaction_for (fun s => s) "A ->" =
      .error "Expected products:\n A ->\n     ^" ∧
    make_reaction_for (fun s => s) "A B" =
      .error "Expected products:\n A B\n    ^" ∧
    make_reaction_for (fun s => s) "A -> B -> C" =
      .error "Duplicated arrow:\n A -> B -> C\n        ^" ∧
    make_decay_for (fun s => s) "-> A" =
      .error "Missing head particle:\n -> A\n ^" ∧
    make_decay_for (fun s => s) "{A -> B} -> C" =
      .error "Decay starts with another decay:\n {A -> B} -> C\n ^" ∧
    make_decay_for (fun s => s) "A {B -> C} -> D" =
      .error "Specifying a decay as head:\n A {B -> C} -> D\n   ^" ∧
    make_decay_for (fun s => s) "A ->" =
      .error "Expected products:\n A ->\n     ^" ∧
    make_decay_for (fun s => s) "A -> B -> C" =
      .error "Duplicated arrow:\n A -> B -> C\n        ^" ∧
    make_decay_for (fun s => s) "A B C" =
      .error "Arrow expected:\n A B C\n   ^" ∧
    make_decay_for (fun s => s) "A B" =
      .error "Expected products:\n A B\n    ^" :=
  ⟨rfl, rfl, rfl, rfl, rfl, rfl, rfl, rfl, rfl, rfl, rfl, rfl⟩

/-- C9: the claim states that a numeric field whose text holds a number
too large for the target type still surfaces as a typed `DatabaseError`.
In the code `string_to_type` catches only `std::invalid_argument`, so the
`std::out_of_range` raised by `std::stoi` on such a text escapes the
field-decoding machinery (and hence `read_element` and every public
operation above it) as an untyped exception. -/
theorem c9_out_of_range_escapes_untyped :
    stoi "9999999999" = .error .out_of_range ∧
    string_to_type_int "9999999999" = .error .std_out_of_range ∧
    read_field_scalar string_to_type_int ⟨0, 10⟩ "9999999999" =
      .error .std_out_of_range :=
  ⟨rfl, rfl, rfl⟩

/-! #### Auxiliary lemmas for the field-decoding characterisation (C7) -/

theorem dropWhile_append_char (p : Char → Bool) (a b : List Char) :
    (a ++ b).dropWhile p =
      if (a.dropWhile p).isEmpty then b.dropWhile p else a.dropWhile p ++ b := by
  induction a with
  | nil => simp
  | cons x a ih =>
    by_cases h : p x
    · simp [List.dropWhile_cons, h, ih]
    · simp [List.dropWhile_cons, h]

theorem dropTrailingSpaces_cons (c : Char) (m : List Char) :
    dropTrailingSpaces (c :: m) =
      if (dropTrailingSpaces m).isEmpty then (if c = ' ' then [] else [c])
      else c :: dropTrailingSpaces m := by
  unfold dropTrailingSpaces
  rw [List.reverse_cons, dropWhile_append_char]
  cases hrev : m.reverse.dropWhile (· = ' ') with
  | nil => by_cases hc : c = ' ' <;> simp [List.dropWhile, hc]
  | cons y ys => simp

theorem trimSpaces_cons_space (m : List Char) :
    trimSpaces (' ' :: m) = trimSpaces m := by
  simp [trimSpaces, List.dropWhile_cons]

theorem trimSpaces_cons_nonspace {c : Char} (hc : c ≠ ' ') (m : List Char) :
    trimSpaces (c :: m) = c :: dropTrailingSpaces m := by
  have h1 : (c :: m).dropWhile (· = ' ') = c :: m := by
    simp [List.dropWhile_cons, hc]
  show (((c :: m).dropWhile (· = ' ')).reverse.dropWhile (· = ' ')).reverse = _
  rw [h1]
  show dropTrailingSpaces (c :: m) = _
  rw [dropTrailingSpaces_cons]
  cases hrev : dropTrailingSpaces m with
  | nil => simp [hc]
  | cons y ys => simp

theorem find_last_not_of_space_ne_nil {l : List Char} {mx i : Nat}
    (h : find_last_not_of_space l mx = some i) : l ≠ [] := by
  intro he
  subst he
  simp [find_last_not_of_space] at h

/-- The code's backwards search: the prefix up to (and including) the last
non-space at or before `mx` is the right-inclusive prefix `[0, mx]` with
its trailing spaces removed. -/
theorem flns_take : ∀ (l : List Char) (mx : Nat),
    dropTrailingSpaces (l.take (mx + 1)) =
      (match find_last_not_of_space l mx with
       | some last => l.take (last + 1)
       | none => ([] : List Char))
  | [], mx => by simp [dropTrailingSpaces, find_last_not_of_space]
  | c :: cs, 0 => by
    by_cases hc : c = ' ' <;>
      simp [dropTrailingSpaces, find_last_not_of_space, hc, List.dropWhile, hc]
  | c :: cs, mx + 1 => by
    have ih := flns_take cs mx
    rw [List.take_succ_cons, dropTrailingSpaces_cons, ih]
    cases hf : find_last_not_of_space cs mx with
    | none =>
      by_cases hc : c = ' ' <;> simp [find_last_not_of_space, hf, hc]
    | some i =>
      have hcs : cs ≠ [] := find_last_not_of_space_ne_nil hf
      match cs, hcs with
      | x :: xs, _ => simp [find_last_not_of_space, hf]

/-- The code's emptiness test: the first non-space at or after `mn` lies at
or beyond `mx` exactly when the half-open window `[mn, mx)` is all
spaces. -/
theorem ffns_all : ∀ (l : List Char) (mn mx : Nat),
    (window l mn mx).all (· = ' ') =
      (match find_first_not_of_space l mn with
       | none => true
       | some b => decide (mx ≤ b))
  | [], mn, mx => by simp [window, find_first_not_of_space]
  | c :: cs, mn + 1, mx => by
    cases mx with
    | zero =>
      cases hf : find_first_not_of_space cs mn <;>
        simp [window, find_first_not_of_space, hf]
    | succ k =>
      have ih := ffns_all cs mn k
      cases hf : find_first_not_of_space cs mn <;>
        simp [window, find_first_not_of_space, hf, List.take_succ_cons,
          List.drop_succ_cons, Nat.succ_le_succ_iff] at ih ⊢ <;>
        exact ih
  | c :: cs, 0, mx => by
    by_cases hc : c = ' '
    · cases mx with
      | zero =>
        cases hf : find_first_not_of_space (c :: cs) 0 <;> simp [window, hf]
      | succ k =>
        have ih := ffns_all cs 0 k
        cases hf : find_first_not_of_space cs 0 <;>
          simp [window, find_first_not_of_space, hf, hc,
            List.take_succ_cons, Nat.succ_le_succ_iff] at ih ⊢ <;>
          exact ih
    · cases mx with
      | zero => simp [window, find_first_not_of_space, hc]
      | succ k => simp [window, find_first_not_of_space, hc, List.take_succ_cons]

/-- The code's extraction: when the window `[mn, mx)` holds a non-space
character (at the first position `b` found from `mn`), the extracted slice
`[b, last + 1)` is the right-inclusive window `[mn, mx]` with surrounding
spaces trimmed. -/
theorem ffns_extract : ∀ (l : List Char) (mn mx b : Nat),
    find_first_not_of_space l mn = some b → b < mx →
    (match find_last_not_of_space l mx with
     | some last => (l.drop b).take (last + 1 - b)
     | none => ([] : List Char)) =
      trimSpaces (window l mn (mx + 1))
  | [], mn, mx, b => by simp [find_first_not_of_space]
  | c :: cs, mn + 1, mx, b => by
    intro hf hb
    cases hf' : find_first_not_of_space cs mn with
    | none => simp [find_first_not_of_space, hf'] at hf
    | some b' =>
      simp [find_first_not_of_space, hf'] at hf
      subst hf
      cases mx with
      | zero => omega
      | succ k =>
        have ih := ffns_extract cs mn k b' hf' (by omega)
        have hw : window (c :: cs) (mn + 1) (k + 1 + 1) = window cs mn (k + 1) := by
          simp [window, List.take_succ_cons, List.drop_succ_cons]
        rw [hw, ← ih]
        cases hfl : find_last_not_of_space cs k with
        | none =>
          by_cases hc : c = ' ' <;>
            simp [find_last_not_of_space, hfl, hc, List.drop_succ_cons,
              Nat.sub_eq_zero_of_le]
        | some i =>
          simp [find_last_not_of_space, hfl, List.drop_succ_cons,
            Nat.succ_sub_succ]
  | c :: cs, 0, mx, b => by
    intro hf hb
    by_cases hc : c = ' '
    · subst hc
      simp only [find_first_not_of_space, if_neg, reduceIte] at hf
      cases hf' : find_first_not_of_space cs 0 with
      | none => rw [hf'] at hf; simp at hf
      | some b' =>
        rw [hf'] at hf
        simp at hf
        subst hf
        cases mx with
        | zero => omega
        | succ k =>
          have ih := ffns_extract cs 0 k b' hf' (by omega)
          have hw : window (' ' :: cs) 0 (k + 1 + 1) = ' ' :: window cs 0 (k + 1) := by
            simp [window, List.take_succ_cons]
          rw [hw, trimSpaces_cons_space, ← ih]
          cases hfl : find_last_not_of_space cs k with
          | none =>
            simp [find_last_not_of_space, hfl, List.drop_succ_cons,
              Nat.sub_eq_zero_of_le]
          | some i =>
            simp [find_last_not_of_space, hfl, List.drop_succ_cons,
              Nat.succ_sub_succ]
    · simp [find_first_not_of_space, hc] at hf
      subst hf
      cases mx with
      | zero => omega
      | succ k =>
        have hw : window (c :: cs) 0 (k + 1 + 1) = c :: window cs 0 (k + 1) := by
          simp [window, List.take_succ_cons]
        have hwin : window cs 0 (k + 1) = cs.take (k + 1) := by
          simp [window]
        rw [hw, trimSpaces_cons_nonspace hc, hwin, flns_take cs k]
        cases hfl : find_last_not_of_space cs k with
        | none =>
          simp [find_last_not_of_space, hfl, hc]
        | some i =>
          simp [find_last_not_of_space, hfl, List.take_succ_cons]

/-- C7 counterexample: field decoding does not follow the claim's rules.
Scalar: for the range `[0, 1)` on the line `"12"` the claim's extraction
(exactly `[start, end)`, trimmed) is `"1"`, giving `Present 1` for an int
field, but the code trims through the right boundary *inclusively* and
yields `Present 12`.  Composite: for sub-ranges `[0, 1)` and `[3, 4)` on
the line `"  !  "` both sub-ranges are all-space, so the claim requires
`Absent`, but the code's overall-span pre-check sees the `!` between the
sub-ranges and the combination yields `Malformed`. -/
theorem c7_counterexample :
    read_field_scalar string_to_type_int ⟨0, 1⟩ "12" = .ok (.success 12) ∧
    read_field_scalar_claim string_to_type_int ⟨0, 1⟩ "12" = .ok (.success 1) ∧
    read_field_ve string_to_type_int ⟨0, 1⟩ ⟨3, 4⟩ ⟨5, 6⟩ "  !  " =
      .ok .failed ∧
    read_field_ve_claim string_to_type_int ⟨0, 1⟩ ⟨3, 4⟩ "  !  " =
      .ok .empty :=
  ⟨rfl, rfl, rfl, rfl⟩

/-- C7 amended: field decoding follows the amended rules over the declared
column ranges: a scalar field is `Absent` iff its half-open window
`[start, end)` is all spaces (in particular when it is out of range), and
otherwise parses the right-inclusive window `[start, end]` with the
surrounding spaces trimmed; a composite value-and-error field is `Absent`
iff the half-open span from the value range's start to the error range's
end is all spaces, and otherwise decodes the two sub-ranges independently,
any sub-range `Absent` or `Malformed` giving `Malformed` (the third
declared sub-range is ignored). -/
theorem c7_field_decoding_amended {T : Type}
    (conv : String → Except CppExc (ReadResult T)) :
    (∀ (r : Range) (s : String),
        read_field_scalar conv r s = read_field_scalar_amended conv r s) ∧
    (∀ (r0 r1 r2 : Range) (s : String),
        read_field_ve conv r0 r1 r2 s = read_field_ve_amended conv r0 r1 s) := by
  have scalar : ∀ (r : Range) (s : String),
      read_field_scalar conv r s = read_field_scalar_amended conv r s := by
    intro r s
    unfold read_field_scalar read_field_scalar_amended
    rw [ffns_all s.data r.min r.max]
    cases hf : find_first_not_of_space s.data r.min with
    | none => simp
    | some b =>
      by_cases hle : r.max ≤ b
      · simp [hle]
      · have hx := ffns_extract s.data r.min r.max b hf (by omega)
        cases hfl : find_last_not_of_space s.data r.max with
        | none =>
          rw [hfl] at hx
          simp [hle, ← hx]
        | some last =>
          rw [hfl] at hx
          simp [hle, ← hx]
  refine ⟨scalar, ?_⟩
  intro r0 r1 r2 s
  unfold read_field_ve read_field_ve_amended
  rw [ffns_all s.data r0.min r1.max]
  cases hf : find_first_not_of_space s.data r0.min with
  | none => simp
  | some b =>
    by_cases hle : r1.max ≤ b
    · simp [hle]
    · simp only [hle, decide_eq_true_eq, reduceIte, if_neg, not_false_iff]
      cases h0 : read_field_scalar conv r0 s with
      | error e => simp [h0, bind, Except.bind]
      | ok v =>
        cases h1 : read_field_scalar conv r1 s with
        | error e => cases v <;> simp [h0, h1, bind, Except.bind]
        | ok w => cases v <;> cases w <;> simp [h0, h1, bind, Except.bind]

/-! #### Auxiliary lemmas for the database claims -/

theorem access_file_eq_find {E K : Type} (readKey : String → ConvStatus × K)
    (eqK : K → K → Bool) (readElement : String → Except DbErr E)
    (notFound : DbErr) (v : K) :
    ∀ (lines : List String), (∀ l ∈ lines, (readKey l).1 ≠ .failed) →
      access_file readKey eqK readElement notFound v lines =
        (match lines.find? (fun line => eqK (readKey line).2 v) with
         | some line => readElement line
         | none => .error notFound)
  | [], _ => by simp [access_file]
  | line :: rest, h => by
    have h1 : (readKey line).1 ≠ .failed := h line (by simp)
    have ih := access_file_eq_find readKey eqK readElement notFound v rest
      (fun l hl => h l (by simp [hl]))
    by_cases heq : eqK (readKey line).2 v
    · simp [access_file, h1, heq, List.find?_cons]
    · simp [access_file, h1, heq, List.find?_cons, ih]

/-- C4: for every key value and cache state, lookup follows the fallback
order of the claim (Full: scan the whole cache only; UserOnly: scan the
cached records, then stream the file; Empty: stream the file), the first
structurally matching record wins, and a miss raises the `lookup_error`
naming the key field's title and the requested value — provided the key
field of every file line is readable (an unreadable line aborts the scan
with a `database_error` instead, which the claim does not cover). -/
theorem c4_lookup_follows_fallback {E K : Type} (getKey : E → K)
    (eqK : K → K → Bool) (readKey : String → ConvStatus × K)
    (readElement : String → Except DbErr E) (title : String)
    (toStr : K → String) (st : DBState E) (v : K)
    (hclean : ∀ l ∈ st.file, (readKey l).1 ≠ .failed) :
    access getKey eqK readKey readElement title toStr st v =
      access_spec getKey eqK readKey readElement title toStr st v := by
  unfold access access_spec
  cases hst : cacheStatus st with
  | full => rfl
  | user =>
    cases hhit : st.vector.find? (fun el => eqK (getKey el) v) with
    | some el => simp [hhit]
    | none =>
      simp only [hhit]
      exact access_file_eq_find readKey eqK readElement _ v st.file hclean
  | empty =>
    exact access_file_eq_find readKey eqK readElement _ v st.file hclean

/-- Witness for `c4_lookup_follows_fallback`: a `UserOnly` cache whose
record does not match, so the lookup falls through to the file and decodes
the first matching line. -/
theorem c4_lookup_follows_fallback_witness :
    access (fun e : String => e) (· == ·) (fun l => (.success, l))
        (fun l => .ok ("decoded " ++ l)) "name" (fun k => k)
        ⟨["x", "y"], ["u"], 0⟩ "y" =
      access_spec (fun e : String => e) (· == ·) (fun l => (.success, l))
        (fun l => .ok ("decoded " ++ l)) "name" (fun k => k)
        ⟨["x", "y"], ["u"], 0⟩ "y" :=
  c4_lookup_follows_fallback (fun e : String => e) (· == ·)
    (fun l => (.success, l)) (fun l => .ok ("decoded " ++ l)) "name"
    (fun k => k) ⟨["x", "y"], ["u"], 0⟩ "y" (by intro l hl; simp)

theorem register_scan_is_database_error {E KN KI : Type} (ops : DBOps E KN KI)
    (x : E) : ∀ (lines : List String) (e : DbErr),
      register_scan ops x lines = some e → ∃ m, e = .database_error m
  | [], e => by simp [register_scan]
  | line :: rest, e => by
    intro h
    by_cases h1 : (ops.readName line).1 = ConvStatus.failed
    · simp [register_scan, h1] at h
      exact ⟨_, h.symm⟩
    · by_cases h2 : ops.eqN (ops.getName x) (ops.readName line).2
      · simp [register_scan, h1, h2] at h
        exact ⟨_, h.symm⟩
      · by_cases h3 : (ops.readId line).1 = ConvStatus.failed
        · simp [register_scan, h1, h2, h3] at h
          exact ⟨_, h.symm⟩
        · by_cases h4 : ops.eqI (ops.getId x) (ops.readId line).2
          · simp [register_scan, h1, h2, h3, h4] at h
            exact ⟨_, h.symm⟩
          · simp only [register_scan, h1, h2, h3, h4, if_false, if_neg,
              not_false_iff] at h
            exact register_scan_is_database_error ops x rest e (by
              simpa [h1, h2, h3, h4] using h)

theorem register_scan_catches_name_clash {E KN KI : Type}
    (ops : DBOps E KN KI) (x : E) :
    ∀ (lines : List String),
      (∃ l ∈ lines, ops.eqN (ops.getName x) ((ops.readName l).2) = true) →
      register_scan ops x lines ≠ none
  | [], h => by simp at h
  | line :: rest, h => by
    by_cases h1 : (ops.readName line).1 = ConvStatus.failed
    · simp [register_scan, h1]
    · by_cases h2 : ops.eqN (ops.getName x) (ops.readName line).2
      · simp [register_scan, h1, h2]
      · by_cases h3 : (ops.readId line).1 = ConvStatus.failed
        · simp [register_scan, h1, h2, h3]
        · by_cases h4 : ops.eqI (ops.getId x) (ops.readId line).2
          · simp [register_scan, h1, h2, h3, h4]
          · rcases h with ⟨l, hl, hcl⟩
            rcases List.mem_cons.mp hl with rfl | hl'
            · exact absurd hcl h2
            · have ih := register_scan_catches_name_clash ops x rest ⟨l, hl', hcl⟩
              simpa [register_scan, h1, h2, h3, h4] using ih

theorem register_scan_catches_id_clash {E KN KI : Type}
    (ops : DBOps E KN KI) (x : E) :
    ∀ (lines : List String),
      (∃ l ∈ lines, ops.eqI (ops.getId x) ((ops.readId l).2) = true) →
      register_scan ops x lines ≠ none
  | [], h => by simp at h
  | line :: rest, h => by
    by_cases h1 : (ops.readName line).1 = ConvStatus.failed
    · simp [register_scan, h1]
    · by_cases h2 : ops.eqN (ops.getName x) (ops.readName line).2
      · simp [register_scan, h1, h2]
      · by_cases h3 : (ops.readId line).1 = ConvStatus.failed
        · simp [register_scan, h1, h2, h3]
        · by_cases h4 : ops.eqI (ops.getId x) (ops.readId line).2
          · simp [register_scan, h1, h2, h3, h4]
          · rcases h with ⟨l, hl, hcl⟩
            rcases List.mem_cons.mp hl with rfl | hl'
            · exact absurd hcl h4
            · have ih := register_scan_catches_id_clash ops x rest ⟨l, hl', hcl⟩
              simpa [register_scan, h1, h2, h3, h4] using ih

theorem add_user_element_atomic {E KN KI : Type} (ops : DBOps E KN KI)
    (st : DBState E) (x : E) (e : DbErr)
    (h : (add_user_element ops st x).1 = .error e) :
    (add_user_element ops st x).2 = st := by
  by_cases hc : st.vector.any (fun el => clashes ops el x)
  · simp [add_user_element, hc]
  · simp [add_user_element, hc] at h

/-- C5: a record whose name key or id key collides with the current
logical population is rejected: a name collision (in the file when the
cache is not full, or among the cached records) raises a `database_error`,
an id collision likewise, each detected on its own; on the file-scan path
the two collisions carry their own distinct messages; and a failed call
leaves the cache — and hence the logical population — exactly unchanged
(no partial append to the user segment). -/
theorem c5_register_collision_detected_and_atomic {E KN KI : Type}
    (ops : DBOps E KN KI) (st : DBState E) (x : E) :
    (∀ e, (register_element ops st x).1 = .error e →
      (register_element ops st x).2 = st) ∧
    (cacheStatus st ≠ .full →
      (∃ l ∈ st.file, ops.eqN (ops.getName x) ((ops.readName l).2) = true) →
      errIsDatabaseError (register_element ops st x).1 = true) ∧
    (cacheStatus st ≠ .full →
      (∃ l ∈ st.file, ops.eqI (ops.getId x) ((ops.readId l).2) = true) →
      errIsDatabaseError (register_element ops st x).1 = true) ∧
    ((∃ el ∈ st.vector, clashes ops el x = true) →
      errIsDatabaseError (register_element ops st x).1 = true) ∧
    (cacheStatus st ≠ .full → ∀ l, st.file = [l] →
      (ops.readName l).1 ≠ .failed →
      ops.eqN (ops.getName x) ((ops.readName l).2) = true →
      (register_element ops st x).1 = .error (.database_error
        "Attempt to register an element with similar name to an element in the database")) ∧
    (cacheStatus st ≠ .full → ∀ l, st.file = [l] →
      (ops.readName l).1 ≠ .failed →
      ops.eqN (ops.getName x) ((ops.readName l).2) = false →
      (ops.readId l).1 ≠ .failed →
      ops.eqI (ops.getId x) ((ops.readId l).2) = true →
      (register_element ops st x).1 = .error (.database_error
        "Attempt to register an element with similar ID to an element in the database")) := by
  refine ⟨?_, ?_, ?_, ?_, ?_, ?_⟩
  · -- atomicity
    intro e h
    by_cases hfull : cacheStatus st ≠ .full
    · cases hs : register_scan ops x st.file with
      | some e' => simp [register_element, hfull, hs]
      | none =>
        unfold register_element at h ⊢
        rw [if_pos hfull, hs] at h ⊢
        exact add_user_element_atomic ops st x e h
    · unfold register_element at h ⊢
      rw [if_neg hfull] at h ⊢
      exact add_user_element_atomic ops st x e h
  · -- name collision in the file
    intro hfull hclash
    cases hs : register_scan ops x st.file with
    | none => exact absurd hs (register_scan_catches_name_clash ops x st.file hclash)
    | some e =>
      obtain ⟨m, rfl⟩ := register_scan_is_database_error ops x st.file e hs
      simp [register_element, hfull, hs, errIsDatabaseError]
  · -- id collision in the file
    intro hfull hclash
    cases hs : register_scan ops x st.file with
    | none => exact absurd hs (register_scan_catches_id_clash ops x st.file hclash)
    | some e =>
      obtain ⟨m, rfl⟩ := register_scan_is_database_error ops x st.file e hs
      simp [register_element, hfull, hs, errIsDatabaseError]
  · -- collision with a cached record
    intro hclash
    have hany : st.vector.any (fun el => clashes ops el x) = true := by
      rcases hclash with ⟨el, hel, hc⟩
      exact List.any_eq_true.mpr ⟨el, hel, hc⟩
    by_cases hfull : cacheStatus st ≠ .full
    · cases hs : register_scan ops x st.file with
      | some e =>
        obtain ⟨m, rfl⟩ := register_scan_is_database_error ops x st.file e hs
        simp [register_element, hfull, hs, errIsDatabaseError]
      | none =>
        simp [register_element, hfull, hs, add_user_element, hany,
          errIsDatabaseError]
    · simp [register_element, hfull, add_user_element, hany, errIsDatabaseError]
  · -- file-path message for a name clash
    intro hfull l hfile h1 h2
    simp [register_element, hfull, hfile, register_scan, h1, h2]
  · -- file-path message for an id clash
    intro hfull l hfile h1 h2 h3 h4
    simp [register_element, hfull, hfile, register_scan, h1, h2, h3, h4]

/-- Witness for `c5_register_collision_detected_and_atomic`: registering
`"N"` into a database whose (uncached) file already holds the record `"N"`
fails with the name-clash `database_error` and leaves the cache
unchanged. -/
theorem c5_register_collision_witness :
    errIsDatabaseError (register_element opsConstId ⟨["N"], [], 0⟩ "N").1 = true ∧
    (register_element opsConstId ⟨["N"], [], 0⟩ "N").2 = ⟨["N"], [], 0⟩ :=
  ⟨(c5_register_collision_detected_and_atomic opsConstId ⟨["N"], [], 0⟩ "N").2.1
      (by decide) ⟨"N", by simp, by decide⟩,
    (c5_register_collision_detected_and_atomic opsConstId ⟨["N"], [], 0⟩ "N").1
      (.database_error
        "Attempt to register an element with similar name to an element in the database")
      (by rfl)⟩

theorem add_loop_ok {E KN KI : Type} (ops : DBOps E KN KI) (user : List E) :
    ∀ (lines : List String) (acc : List E),
      (∀ l ∈ lines, ∃ e, ops.readElement l = .ok e ∧
        user.any (fun u => clashes ops u e) = false) →
      ∃ out, add_database_elements_loop ops user acc lines = .ok out
  | [], acc, _ => ⟨acc, rfl⟩
  | line :: rest, acc, h => by
    obtain ⟨e, he, hcl⟩ := h line (by simp)
    obtain ⟨out, hout⟩ :=
      add_loop_ok ops user rest (acc ++ [e]) (fun l hl => h l (by simp [hl]))
    exact ⟨out, by simp [add_database_elements_loop, he, hcl, hout]⟩

theorem add_loop_length {E KN KI : Type} (ops : DBOps E KN KI) (user : List E) :
    ∀ (lines : List String) (acc out : List E),
      add_database_elements_loop ops user acc lines = .ok out →
      out.length = acc.length + lines.length
  | [], acc, out => by
    intro h
    simp [add_database_elements_loop] at h
    simp [← h]
  | line :: rest, acc, out => by
    intro h
    unfold add_database_elements_loop at h
    cases hre : ops.readElement line with
    | error e => rw [hre] at h; simp at h
    | ok el =>
      rw [hre] at h
      simp only [] at h
      by_cases hg : ¬user.isEmpty ∧ user.any (fun u => clashes ops u el)
      · rw [if_pos hg] at h
        cases hlast : acc.getLast? <;> rw [hlast] at h <;> simp at h
      · rw [if_neg hg] at h
        have ih := add_loop_length ops user rest (acc ++ [el]) out h
        simp at ih
        simp [ih]
        omega

theorem add_loop_clash {E KN KI : Type} (ops : DBOps E KN KI) (user : List E)
    (lC : String) (rest : List String) (eC : E)
    (heC : ops.readElement lC = .ok eC)
    (hany : user.any (fun u => clashes ops u eC) = true) :
    ∀ (good : List String) (acc : List E), (good ≠ [] ∨ acc ≠ []) →
      (∀ l ∈ good, ∃ e, ops.readElement l = .ok e ∧
        user.any (fun u => clashes ops u e) = false) →
      ∃ m, add_database_elements_loop ops user acc (good ++ lC :: rest) =
        .error (.database_error m)
  | [], acc, hne, _ => by
    have hacc : acc ≠ [] := by tauto
    have huser : ¬user.isEmpty := by
      rcases List.any_eq_true.mp hany with ⟨u, hu, _⟩
      intro hemp
      rw [List.isEmpty_iff] at hemp
      subst hemp
      simp at hu
    cases hlast : acc.getLast? with
    | none =>
      rw [List.getLast?_eq_none_iff] at hlast
      exact absurd hlast hacc
    | some prev =>
      exact ⟨"User-defined element clashes with database element: \"" ++
          ops.nameStr prev ++ "\"",
        by simp [add_database_elements_loop, heC, huser, hany, hlast]⟩
  | g :: good', acc, _, hgood => by
    obtain ⟨e, he, hcl⟩ := hgood g (by simp)
    obtain ⟨m, hm⟩ := add_loop_clash ops user lC rest eC heC hany good'
      (acc ++ [e]) (Or.inr (by simp)) (fun l hl => hgood l (by simp [hl]))
    exact ⟨m, by simp [add_database_elements_loop, he, hcl]; exact hm⟩

theorem register_result_cases {E KN KI : Type} (ops : DBOps E KN KI)
    (st : DBState E) (x : E) :
    (register_element ops st x).2 = st ∨
    (register_element ops st x).2 = { st with vector := st.vector ++ [x] } := by
  by_cases hfull : cacheStatus st ≠ .full
  · unfold register_element
    rw [if_pos hfull]
    cases hs : register_scan ops x st.file with
    | some e => left; rfl
    | none =>
      by_cases hc : st.vector.any (fun el => clashes ops el x)
      · left; simp [add_user_element, hc]
      · right; simp [add_user_element, hc]
  · unfold register_element
    rw [if_neg hfull]
    by_cases hc : st.vector.any (fun el => clashes ops el x)
    · left; simp [add_user_element, hc]
    · right; simp [add_user_element, hc]

/-- C6 counterexample: the claimed transition `Full --disable--> UserOnly`
fails when no user-registered records are in the cache: enabling the
cache over a one-record file yields `Full`, but disabling it then yields
`Empty`, not `UserOnly`.  (Likewise `Empty --enable--> Full` fails for a
record-less file: the cache stays `Empty`.) -/
theorem c6_counterexample :
    cacheStatus ((enable_cache opsLen ⟨["r"], [], 0⟩).2) = .full ∧
    cacheStatus (disable_cache ((enable_cache opsLen ⟨["r"], [], 0⟩).2)) =
      .empty ∧
    cacheStatus ((enable_cache opsLen ⟨[], [], 0⟩).2) = .empty := by
  refine ⟨rfl, rfl, rfl⟩

/-- C6 amended: the cache state machine with the two edge conditions the
code imposes: `clear_cache` always yields `Empty` with no records;
`disable_cache` from `Full` yields `UserOnly` when at least one
user-registered record is cached and `Empty` otherwise; from a non-`Full`
state (`Empty` or `UserOnly`), `enable_cache` succeeds when every file
record decodes and does not clash with a cached user record, and yields
`Full` provided the file holds at least one record;
`enable_cache(); disable_cache()` leaves exactly the previously
user-registered records, in their original relative order; and a
`register_element` call never changes the state category except
`Empty -> UserOnly` (for cache states whose separator does not exceed the
cache size, an invariant of every reachable state). -/
theorem c6_cache_state_machine_amended {E KN KI : Type} (ops : DBOps E KN KI)
    (st : DBState E) (x : E) :
    (cacheStatus (clear_cache st) = .empty ∧ (clear_cache st).vector = []) ∧
    (cacheStatus st = .full →
      cacheStatus (disable_cache st) =
        (if (userRegistered st).isEmpty then .empty else .user)) ∧
    (cacheStatus st ≠ .full →
      (∀ l ∈ st.file, ∃ e, ops.readElement l = .ok e ∧
        (userRegistered st).any (fun u => clashes ops u e) = false) →
      (enable_cache ops st).1 = .ok () ∧
      (st.file ≠ [] → cacheStatus (enable_cache ops st).2 = .full)) ∧
    ((enable_cache ops st).1 = .ok () →
      (disable_cache (enable_cache ops st).2).vector = userRegistered st ∧
      (disable_cache (enable_cache ops st).2).separator = 0) ∧
    (st.separator ≤ st.vector.length →
      cacheStatus (register_element ops st x).2 = cacheStatus st ∨
      (cacheStatus st = .empty ∧
        cacheStatus (register_element ops st x).2 = .user)) := by
  refine ⟨⟨rfl, rfl⟩, ?_, ?_, ?_, ?_⟩
  · -- disable from Full
    intro _hfull
    unfold disable_cache cacheStatus userRegistered
    cases hd : st.vector.drop st.separator with
    | nil => simp [hd]
    | cons a t => simp [hd]
  · -- enable from a non-Full state
    intro hfull hgood
    unfold enable_cache
    rw [if_neg hfull]
    obtain ⟨out, hout⟩ := add_loop_ok ops (userRegistered st) st.file [] hgood
    rw [hout]
    refine ⟨rfl, ?_⟩
    intro hne
    have hlen := add_loop_length ops (userRegistered st) st.file [] out hout
    simp at hlen
    have h2 : st.file.length ≠ 0 := by
      intro h0
      exact hne (List.length_eq_zero.mp h0)
    have h1 : (out ++ userRegistered st).length ≠ 0 := by
      rw [List.length_append, hlen]
      omega
    show (if (out ++ userRegistered st).length ≠ 0 then
        if st.file.length = 0 then CacheStatus.user else CacheStatus.full
      else CacheStatus.empty) = CacheStatus.full
    rw [if_pos h1, if_neg h2]
  · -- enable-then-disable keeps exactly the user records
    intro hok
    by_cases hfull : cacheStatus st = .full
    · unfold enable_cache at hok ⊢
      rw [if_pos hfull] at hok ⊢
      simp [disable_cache, userRegistered]
    · unfold enable_cache at hok ⊢
      rw [if_neg hfull] at hok ⊢
      cases hloop : add_database_elements_loop ops (userRegistered st) [] st.file with
      | error e => rw [hloop] at hok; simp at hok
      | ok out =>
        have hlen := add_loop_length ops (userRegistered st) st.file [] out hloop
        simp at hlen
        constructor
        · show (out ++ userRegistered st).drop st.file.length = userRegistered st
          rw [← hlen, List.drop_left]
        · rfl
  · -- register never changes the category except Empty -> UserOnly
    intro hsep
    rcases register_result_cases ops st x with h2 | h2 <;> rw [h2]
    · left; rfl
    · cases hv : st.vector with
      | nil =>
        have hsep0 : st.separator = 0 := by
          rw [hv] at hsep
          simpa using hsep
        right
        constructor
        · simp [cacheStatus, hv]
        · simp [cacheStatus, hv, hsep0]
      | cons a t =>
        left
        by_cases hs0 : st.separator = 0 <;> simp [cacheStatus, hv, hs0]

/-- Witness for `c6_cache_state_machine_amended`: a `UserOnly` database
(file `["aa"]`, user record `"b"`) runs through enable (to `Full`),
disable (back to exactly the user record), clear, and a registration that
keeps the `UserOnly` category. -/
theorem c6_cache_state_machine_witness :
    (enable_cache opsLen ⟨["aa"], ["b"], 0⟩).1 = .ok () ∧
    cacheStatus (enable_cache opsLen ⟨["aa"], ["b"], 0⟩).2 = .full ∧
    (disable_cache (enable_cache opsLen ⟨["aa"], ["b"], 0⟩).2).vector = ["b"] ∧
    cacheStatus (clear_cache (⟨["aa"], ["b"], 0⟩ : DBState String)) = .empty ∧
    (cacheStatus (register_element opsLen ⟨["aa"], ["b"], 0⟩ "c").2 =
        cacheStatus (⟨["aa"], ["b"], 0⟩ : DBState String) ∨
      (cacheStatus (⟨["aa"], ["b"], 0⟩ : DBState String) = .empty ∧
        cacheStatus (register_element opsLen ⟨["aa"], ["b"], 0⟩ "c").2 =
          .user)) := by
  have T := c6_cache_state_machine_amended opsLen
    (⟨["aa"], ["b"], 0⟩ : DBState String) "c"
  have hgood : ∀ l ∈ (⟨["aa"], ["b"], 0⟩ : DBState String).file,
      ∃ e, opsLen.readElement l = .ok e ∧
        (userRegistered (⟨["aa"], ["b"], 0⟩ : DBState String)).any
          (fun u => clashes opsLen u e) = false := by
    intro l hl
    have : l = "aa" := by simpa using hl
    subst this
    exact ⟨"aa", rfl, by decide⟩
  obtain ⟨hok, hfullres⟩ := T.2.2.1 (by decide) hgood
  refine ⟨hok, hfullres (by decide), ?_, T.1.1, T.2.2.2.2 (by decide)⟩
  exact (T.2.2.2.1 hok).1

/-- C10 counterexample: when the *first* record read from the file clashes
with an already user-registered record, the error-message construction
evaluates `new_cache.back()` on an empty vector — undefined behaviour, not
the claimed `DatabaseError`.  Input: file `["f"]`, cached user record
`"u"`, all ids equal. -/
theorem c10_counterexample :
    (enable_cache opsConstId ⟨["f"], ["u"], 0⟩).1 =
      .error (.undefined_behaviour "std::vector::back() on an empty vector") ∧
    errIsDatabaseError (enable_cache opsConstId ⟨["f"], ["u"], 0⟩).1 = false :=
  ⟨rfl, rfl⟩

/-- C10 amended: whenever `enable_cache` fails the cache is left exactly
as it was (the partially built replacement sequence is local and never
installed); and if, while loading, a file record *other than the first*
clashes with an already user-registered record (all earlier records
loading cleanly), the call raises a `database_error` and leaves the cache
unchanged.  (A clash on the very first record instead reads the back of an
empty vector — undefined behaviour — while building the message.) -/
theorem c10_enable_clash_amended {E KN KI : Type} (ops : DBOps E KN KI)
    (st : DBState E) :
    (∀ e, (enable_cache ops st).1 = .error e → (enable_cache ops st).2 = st) ∧
    (∀ (good : List String) (lC : String) (rest : List String),
      st.file = good ++ lC :: rest → good ≠ [] →
      cacheStatus st ≠ .full →
      (∀ l ∈ good, ∃ e, ops.readElement l = .ok e ∧
        (userRegistered st).any (fun u => clashes ops u e) = false) →
      (∃ eC, ops.readElement lC = .ok eC ∧
        (userRegistered st).any (fun u => clashes ops u eC) = true) →
      errIsDatabaseError (enable_cache ops st).1 = true ∧
      (enable_cache ops st).2 = st) := by
  constructor
  · intro e h
    by_cases hfull : cacheStatus st = .full
    · unfold enable_cache at h ⊢
      rw [if_pos hfull] at h ⊢
    · unfold enable_cache at h ⊢
      rw [if_neg hfull] at h ⊢
      cases hloop : add_database_elements_loop ops (userRegistered st) [] st.file with
      | error e' => rfl
      | ok out => rw [hloop] at h; simp at h
  · intro good lC rest hfile hne hfull hgood hclash
    obtain ⟨eC, heC, hany⟩ := hclash
    obtain ⟨m, hm⟩ := add_loop_clash ops (userRegistered st) lC rest eC heC
      hany good [] (Or.inl hne) hgood
    unfold enable_cache
    rw [if_neg hfull, hfile, hm]
    exact ⟨rfl, rfl⟩

/-- Witness for `c10_enable_clash_amended`: file `["aa", "b"]` with a
cached user record `"b"`; the second file record clashes by name, so
`enable_cache` fails with a `database_error` and the cache is exactly as
before. -/
theorem c10_enable_clash_witness :
    errIsDatabaseError (enable_cache opsLen ⟨["aa", "b"], ["b"], 0⟩).1 = true ∧
    (enable_cache opsLen ⟨["aa", "b"], ["b"], 0⟩).2 = ⟨["aa", "b"], ["b"], 0⟩ := by
  have T := c10_enable_clash_amended opsLen
    (⟨["aa", "b"], ["b"], 0⟩ : DBState String)
  refine T.2 ["aa"] "b" [] rfl (by decide) (by decide) ?_ ⟨"b", rfl, by decide⟩
  intro l hl
  have : l = "aa" := by simpa using hl
  subst this
  exact ⟨"aa", rfl, by decide⟩

end Reactions

